import Mathlib

/-!
# Todo service: storage engine and request handler

A shallow embedding of `internal/models/todo.go`, `internal/storage/todo_storage.go`
and `internal/handler/handler.go`.

Modelling conventions.

* The Go map `map[string]*models.Todo` is an association list with pairwise
  distinct keys (`AList`); `s.todos[k]` is `AList.lookup`, assignment to a fresh
  key is `AList.insert`, `delete` is `AList.erase`.  The in-place mutation of the
  stored struct in `Update` is `AList.replace` under the same key.
* The storage methods run under the mutex, one at a time; the embedding is the
  sequential behaviour of one call: the store before goes in, the store after
  and the returned values come out.
* `time.Now()` is an input of the operation that reads the clock.  An instant is
  an integer number of nanoseconds; `UnixNano()` of the reading taken inside
  `generateID` is passed as its own integer.  No relation between successive
  readings is built in: a theorem that needs one states it as a hypothesis.
* `Create` stores the pointer it is given and the handlers do not write through
  it afterwards; `GetByID` and `Update` return copies.  Entities are therefore
  values.
* `GetAll` ranges over the map in an unspecified order; the embedding lists the
  entities in the order of the association list.  The theorems use the length
  of the result only.
* `json.NewDecoder(r.Body).Decode(&req)` is the input `Option Req`: `none` is a
  body that does not parse, `some req` is the decoded request.
* An `error` value is its message; `nil` is `none` (or `Except.ok`).
-/

namespace TodoApp

/-! ## internal/models/todo.go -/

/-- An instant as read from the clock, in nanoseconds. -/
abbrev Time := Int

/-- Todo represents a todo item. -/
structure Todo where
  ID : String
  Title : String
  Description : String
  Completed : Bool
  CreatedAt : Time
  UpdatedAt : Time
  deriving DecidableEq, Repr

/-- CreateTodoRequest is the request payload for creating a todo. -/
structure CreateTodoRequest where
  Title : String
  Description : String
  deriving DecidableEq, Repr

/-- UpdateTodoRequest is the request payload for updating a todo; a nil pointer
field is `none`. -/
structure UpdateTodoRequest where
  Title : Option String
  Description : Option String
  Completed : Option Bool
  deriving DecidableEq, Repr

/-- TodoResponse is the response format for todo operations. -/
structure TodoResponse where
  Success : Bool
  Message : String
  Data : Option Todo
  deriving DecidableEq, Repr

/-- TodoListResponse is the response format for listing todos. -/
structure TodoListResponse where
  Success : Bool
  Message : String
  Data : List Todo
  Total : Nat
  deriving DecidableEq, Repr

/-! ## internal/storage/todo_storage.go -/

/-- InMemoryTodoStorage: the map from ID to the stored todo. -/
structure InMemoryTodoStorage where
  todos : AList (fun _ : String => Todo)
  deriving DecidableEq

/-- NewInMemoryTodoStorage creates an empty storage. -/
def NewInMemoryTodoStorage : InMemoryTodoStorage :=
  { todos := ∅ }

/-- Message of the error returned by `Create` on an ID that is already stored. -/
def errExists (id : String) : String :=
  "todo with ID " ++ id ++ " already exists"

/-- Message of the error returned by `GetByID`, `Update` and `Delete` on an
absent ID. -/
def errNotFound (id : String) : String :=
  "todo with ID " ++ id ++ " not found"

/-- Create adds a new todo to the storage. Returns the store afterwards and the
error, if any. -/
def InMemoryTodoStorage.Create (s : InMemoryTodoStorage) (todo : Todo) :
    InMemoryTodoStorage × Option String :=
  match s.todos.lookup todo.ID with
  | some _ => (s, some (errExists todo.ID))
  | none => ({ todos := s.todos.insert todo.ID todo }, none)

/-- GetByID retrieves (a copy of) a todo by its ID. -/
def InMemoryTodoStorage.GetByID (s : InMemoryTodoStorage) (id : String) :
    Except String Todo :=
  match s.todos.lookup id with
  | none => .error (errNotFound id)
  | some todo => .ok todo

/-- GetAll retrieves all todos from the storage, in the order of the entries. -/
def InMemoryTodoStorage.GetAll (s : InMemoryTodoStorage) : Except String (List Todo) :=
  .ok (s.todos.entries.map (fun e => e.2))

/-- Update modifies an existing todo; `now` is the reading of `time.Now()`. -/
def InMemoryTodoStorage.Update (s : InMemoryTodoStorage) (id : String)
    (updates : UpdateTodoRequest) (now : Time) :
    InMemoryTodoStorage × Except String Todo :=
  match s.todos.lookup id with
  | none => (s, .error (errNotFound id))
  | some todo =>
    let todo := match updates.Title with
      | some t => { todo with Title := t }
      | none => todo
    let todo := match updates.Description with
      | some d => { todo with Description := d }
      | none => todo
    let todo := match updates.Completed with
      | some c => { todo with Completed := c }
      | none => todo
    let todo := { todo with UpdatedAt := now }
    ({ todos := s.todos.replace id todo }, .ok todo)

/-- Delete removes a todo from the storage. -/
def InMemoryTodoStorage.Delete (s : InMemoryTodoStorage) (id : String) :
    InMemoryTodoStorage × Option String :=
  match s.todos.lookup id with
  | none => (s, some (errNotFound id))
  | some _ => ({ todos := s.todos.erase id }, none)

/-- Every stored entry, key `k` with entity `t`, satisfies `P k t`. -/
def InMemoryTodoStorage.AllStored (P : String → Todo → Prop) (s : InMemoryTodoStorage) : Prop :=
  ∀ e ∈ s.todos.entries, P e.1 e.2

instance (P : String → Todo → Prop) [∀ k t, Decidable (P k t)] (s : InMemoryTodoStorage) :
    Decidable (s.AllStored P) :=
  inferInstanceAs (Decidable (∀ e ∈ s.todos.entries, P e.1 e.2))

/-- The data-model invariant `updatedAt >= createdAt`, on every stored entity. -/
def InMemoryTodoStorage.UpdatedNotBeforeCreated (s : InMemoryTodoStorage) : Prop :=
  s.AllStored (fun _ t => t.CreatedAt ≤ t.UpdatedAt)

instance (s : InMemoryTodoStorage) : Decidable s.UpdatedNotBeforeCreated :=
  inferInstanceAs (Decidable (s.AllStored _))

/-- Each stored entity carries the ID it is stored under. -/
def InMemoryTodoStorage.IDsMatchKeys (s : InMemoryTodoStorage) : Prop :=
  s.AllStored (fun k t => t.ID = k)

instance (s : InMemoryTodoStorage) : Decidable s.IDsMatchKeys :=
  inferInstanceAs (Decidable (s.AllStored _))

/-- Every stored entity has a non-empty title. -/
def InMemoryTodoStorage.TitlesNonEmpty (s : InMemoryTodoStorage) : Prop :=
  s.AllStored (fun _ t => t.Title ≠ "")

instance (s : InMemoryTodoStorage) : Decidable s.TitlesNonEmpty :=
  inferInstanceAs (Decidable (s.AllStored _))

/-- One call of the `TodoStorage` interface, with the clock reading it consumes. -/
inductive StorageCall where
  | Create (todo : Todo)
  | GetByID (id : String)
  | GetAll
  | Update (id : String) (updates : UpdateTodoRequest) (now : Time)
  | Delete (id : String)
  deriving DecidableEq

/-- Runs one storage call: the store afterwards, and whether the call returned
without an error. -/
def InMemoryTodoStorage.call (s : InMemoryTodoStorage) :
    StorageCall → InMemoryTodoStorage × Bool
  | .Create todo => ((s.Create todo).1, (s.Create todo).2.isNone)
  | .GetByID id => (s, (s.GetByID id).toBool)
  | .GetAll => (s, s.GetAll.toBool)
  | .Update id updates now => ((s.Update id updates now).1, (s.Update id updates now).2.toBool)
  | .Delete id => ((s.Delete id).1, (s.Delete id).2.isNone)

/-- Runs a sequence of storage calls in order: the final store and, for each
call, whether it succeeded. -/
def InMemoryTodoStorage.calls (s : InMemoryTodoStorage) :
    List StorageCall → InMemoryTodoStorage × List (StorageCall × Bool)
  | [] => (s, [])
  | c :: cs =>
    let r := s.call c
    let rest := r.1.calls cs
    (rest.1, (c, r.2) :: rest.2)

/-- Number of successful `Create` calls in a log. -/
def successfulCreates (log : List (StorageCall × Bool)) : Nat :=
  log.countP (fun e => match e with
    | (.Create _, true) => true
    | _ => false)

/-- Number of successful `Delete` calls in a log. -/
def successfulDeletes (log : List (StorageCall × Bool)) : Nat :=
  log.countP (fun e => match e with
    | (.Delete _, true) => true
    | _ => false)

/-! ## internal/handler/handler.go -/

/-- TodoHandler handles HTTP requests for todo operations; its storage is the
in-memory one the application wires in. -/
structure TodoHandler where
  storage : InMemoryTodoStorage
  deriving DecidableEq

/-- NewTodoHandler creates a new todo handler. -/
def NewTodoHandler (storage : InMemoryTodoStorage) : TodoHandler :=
  { storage := storage }

/-- The JSON body written to the response: a single-entity envelope or the list
envelope. -/
inductive Body where
  | todo (r : TodoResponse)
  | list (r : TodoListResponse)
  deriving DecidableEq, Repr

/-- What a handler writes: the status code and the encoded envelope. -/
structure Response where
  StatusCode : Nat
  Body : Body
  deriving DecidableEq, Repr

def StatusOK : Nat := 200
def StatusCreated : Nat := 201
def StatusBadRequest : Nat := 400
def StatusNotFound : Nat := 404
def StatusInternalServerError : Nat := 500

/-- Formats the `UnixNano()` reading `nano` as `fmt.Sprintf("todo_%d", nano)`. -/
def generateID (nano : Int) : String :=
  "todo_" ++ toString nano

def sendSuccessResponse (statusCode : Nat) (message : String) (data : Option Todo) : Response :=
  { StatusCode := statusCode, Body := .todo { Success := true, Message := message, Data := data } }

def sendErrorResponse (statusCode : Nat) (message : String) : Response :=
  { StatusCode := statusCode, Body := .todo { Success := false, Message := message, Data := none } }

/-- CreateTodo handles POST /todos. `now` is the reading of `time.Now()` in the
handler and `nano` the `UnixNano()` reading taken by `generateID`. -/
def TodoHandler.CreateTodo (h : TodoHandler) (body : Option CreateTodoRequest)
    (now : Time) (nano : Int) : TodoHandler × Response :=
  match body with
  | none => (h, sendErrorResponse StatusBadRequest "Invalid request body")
  | some req =>
    if req.Title = "" then
      (h, sendErrorResponse StatusBadRequest "Title is required")
    else
      let todo : Todo :=
        { ID := generateID nano
          Title := req.Title
          Description := req.Description
          Completed := false
          CreatedAt := now
          UpdatedAt := now }
      match h.storage.Create todo with
      | (s, some _) =>
        ({ storage := s }, sendErrorResponse StatusInternalServerError "Failed to create todo")
      | (s, none) =>
        ({ storage := s },
          sendSuccessResponse StatusCreated "Todo created successfully" (some todo))

/-- GetTodo handles GET /todos/{id}. -/
def TodoHandler.GetTodo (h : TodoHandler) (id : String) : Response :=
  match h.storage.GetByID id with
  | .error _ => sendErrorResponse StatusNotFound "Todo not found"
  | .ok todo => sendSuccessResponse StatusOK "Todo retrieved successfully" (some todo)

/-- GetAllTodos handles GET /todos. -/
def TodoHandler.GetAllTodos (h : TodoHandler) : Response :=
  match h.storage.GetAll with
  | .error _ => sendErrorResponse StatusInternalServerError "Failed to retrieve todos"
  | .ok todos =>
    { StatusCode := StatusOK
      Body := .list
        { Success := true
          Message := "Todos retrieved successfully"
          Data := todos
          Total := todos.length } }

/-- UpdateTodo handles PUT /todos/{id}. -/
def TodoHandler.UpdateTodo (h : TodoHandler) (id : String) (body : Option UpdateTodoRequest)
    (now : Time) : TodoHandler × Response :=
  match body with
  | none => (h, sendErrorResponse StatusBadRequest "Invalid request body")
  | some req =>
    match h.storage.Update id req now with
    | (s, .error _) => ({ storage := s }, sendErrorResponse StatusNotFound "Todo not found")
    | (s, .ok todo) =>
      ({ storage := s }, sendSuccessResponse StatusOK "Todo updated successfully" (some todo))

/-- DeleteTodo handles DELETE /todos/{id}. -/
def TodoHandler.DeleteTodo (h : TodoHandler) (id : String) : TodoHandler × Response :=
  match h.storage.Delete id with
  | (s, some _) => ({ storage := s }, sendErrorResponse StatusNotFound "Todo not found")
  | (s, none) => ({ storage := s }, sendSuccessResponse StatusOK "Todo deleted successfully" none)

/-- A request to one of the API routes registered by `SetupRoutes`, with the
decoded body and the clock readings its handler consumes. -/
inductive Request where
  | CreateTodo (body : Option CreateTodoRequest) (now : Time) (nano : Int)
  | GetAllTodos
  | GetTodo (id : String)
  | UpdateTodo (id : String) (body : Option UpdateTodoRequest) (now : Time)
  | DeleteTodo (id : String)
  deriving DecidableEq

/-- Dispatches one request to its handler, as the route table of `SetupRoutes`
does. -/
def TodoHandler.serve (h : TodoHandler) : Request → TodoHandler × Response
  | .CreateTodo body now nano => h.CreateTodo body now nano
  | .GetAllTodos => (h, h.GetAllTodos)
  | .GetTodo id => (h, h.GetTodo id)
  | .UpdateTodo id body now => h.UpdateTodo id body now
  | .DeleteTodo id => h.DeleteTodo id

/-- Serves a sequence of requests in order: the handler afterwards and each
request with its response. -/
def TodoHandler.serveAll (h : TodoHandler) :
    List Request → TodoHandler × List (Request × Response)
  | [] => (h, [])
  | r :: rs =>
    let o := h.serve r
    let rest := o.1.serveAll rs
    (rest.1, (r, o.2) :: rest.2)

/-- The `UnixNano()` reading a request makes `generateID` take: only a
`CreateTodo` whose body parses with a non-empty title reaches `generateID`. -/
def Request.idReading : Request → Option Int
  | .CreateTodo (some req) _ nano => if req.Title = "" then none else some nano
  | _ => none

/-- The entity carried by a single-entity envelope, if any. -/
def Response.data (r : Response) : Option Todo :=
  match r.Body with
  | .todo b => b.Data
  | .list _ => none

/-- The success flag of the envelope. -/
def Response.success (r : Response) : Bool :=
  match r.Body with
  | .todo b => b.Success
  | .list b => b.Success

/-- The IDs returned by the successful (201) `CreateTodo` requests of a log, in
order. -/
def createdIDs (log : List (Request × Response)) : List String :=
  log.filterMap (fun e => match e with
    | (.CreateTodo _ _ _, r) =>
      if r.StatusCode = StatusCreated then r.data.map (fun t => t.ID) else none
    | _ => none)

end TodoApp

namespace TodoApp

/-! ## The map: lookups after `replace` -/

theorem kreplace_cons_self (a : String) (b b' : Todo) (l : List (Σ _ : String, Todo)) :
    List.kreplace a b (⟨a, b'⟩ :: l) = ⟨a, b⟩ :: l := by
  unfold List.kreplace
  exact List.lookmap_cons_some _ l (by simp)

theorem kreplace_cons_ne {a k : String} (b v : Todo) (l : List (Σ _ : String, Todo))
    (h : a ≠ k) : List.kreplace a b (⟨k, v⟩ :: l) = ⟨k, v⟩ :: List.kreplace a b l := by
  unfold List.kreplace
  exact List.lookmap_cons_none _ l (by simp [h])

theorem dlookup_kreplace_self {a : String} {b : Todo} :
    ∀ {l : List (Σ _ : String, Todo)}, a ∈ l.keys →
      List.dlookup a (List.kreplace a b l) = some b
  | [], h => by simp at h
  | ⟨a', b'⟩ :: l, h => by
    by_cases e : a = a'
    · subst e
      rw [kreplace_cons_self, List.dlookup_cons_eq]
    · have hl : a ∈ l.keys := by
        simpa [List.keys, e] using h
      rw [kreplace_cons_ne _ _ _ e, List.dlookup_cons_ne _ _ e]
      exact dlookup_kreplace_self hl

theorem dlookup_kreplace_ne {a a' : String} {b : Todo} (hne : a' ≠ a) :
    ∀ l : List (Σ _ : String, Todo),
      List.dlookup a' (List.kreplace a b l) = List.dlookup a' l
  | [] => by simp [List.kreplace]
  | ⟨k, v⟩ :: l => by
    by_cases e : a = k
    · subst e
      rw [kreplace_cons_self, List.dlookup_cons_ne _ _ hne, List.dlookup_cons_ne _ _ hne]
    · rw [kreplace_cons_ne _ _ _ e]
      by_cases e' : a' = k
      · subst e'
        simp
      · rw [List.dlookup_cons_ne _ _ e', List.dlookup_cons_ne _ _ e']
        exact dlookup_kreplace_ne hne l

theorem lookup_replace_self {a : String} {b : Todo} {m : AList (fun _ : String => Todo)}
    (h : a ∈ m) : (m.replace a b).lookup a = some b :=
  dlookup_kreplace_self (AList.mem_keys.1 h)

theorem lookup_replace_ne {a a' : String} {b : Todo} {m : AList (fun _ : String => Todo)}
    (hne : a' ≠ a) : (m.replace a b).lookup a' = m.lookup a' :=
  dlookup_kreplace_ne hne m.entries

theorem mem_of_lookup_eq_some {a : String} {b : Todo} {m : AList (fun _ : String => Todo)}
    (h : m.lookup a = some b) : a ∈ m :=
  AList.lookup_isSome.1 (by simp [h])

/-! ## Storage engine -/

/-- The value of `Update` on a stored ID, with the merge written out field by
field. -/
theorem update_of_lookup (s : InMemoryTodoStorage) (id : String) (t : Todo)
    (u : UpdateTodoRequest) (now : Time) (h : s.todos.lookup id = some t) :
    s.Update id u now =
      ({ todos := s.todos.replace id
          { ID := t.ID
            Title := u.Title.getD t.Title
            Description := u.Description.getD t.Description
            Completed := u.Completed.getD t.Completed
            CreatedAt := t.CreatedAt
            UpdatedAt := now } },
        .ok
          { ID := t.ID
            Title := u.Title.getD t.Title
            Description := u.Description.getD t.Description
            Completed := u.Completed.getD t.Completed
            CreatedAt := t.CreatedAt
            UpdatedAt := now }) := by
  obtain ⟨_ | ut, _ | ud, _ | uc⟩ := u <;>
    simp only [InMemoryTodoStorage.Update, h, Option.getD]

theorem update_of_absent (s : InMemoryTodoStorage) (id : String)
    (u : UpdateTodoRequest) (now : Time) (h : s.todos.lookup id = none) :
    s.Update id u now = (s, .error (errNotFound id)) := by
  simp only [InMemoryTodoStorage.Update, h]

/-- C1. `Update` on an ID stored with entity `t` succeeds; the returned entity
takes each of title, description and completed from the request when present
and from `t` otherwise, keeps `t`'s ID and creation time, and is the entity
`GetByID` returns afterwards. -/
theorem update_merges_present_fields (s : InMemoryTodoStorage) (id : String) (t : Todo)
    (u : UpdateTodoRequest) (now : Time) (h : s.todos.lookup id = some t) :
    ∃ r, (s.Update id u now).2 = .ok r ∧
      r.Title = u.Title.getD t.Title ∧
      r.Description = u.Description.getD t.Description ∧
      r.Completed = u.Completed.getD t.Completed ∧
      r.ID = t.ID ∧ r.CreatedAt = t.CreatedAt ∧
      (s.Update id u now).1.GetByID id = .ok r := by
  have hm : id ∈ s.todos := mem_of_lookup_eq_some h
  refine ⟨_, congrArg Prod.snd (update_of_lookup s id t u now h), rfl, rfl, rfl, rfl, rfl, ?_⟩
  rw [update_of_lookup s id t u now h]
  simp only [InMemoryTodoStorage.GetByID, lookup_replace_self hm]

theorem update_merges_present_fields_witness :
    ∃ r, ((NewInMemoryTodoStorage.Create ⟨"a", "t", "d", false, 5, 5⟩).1.Update "a"
        ⟨none, some "e", some true⟩ 9).2 = .ok r ∧
      r.Title = "t" ∧ r.Description = "e" ∧ r.Completed = true ∧ r.ID = "a" ∧
      r.CreatedAt = 5 ∧
      ((NewInMemoryTodoStorage.Create ⟨"a", "t", "d", false, 5, 5⟩).1.Update "a"
        ⟨none, some "e", some true⟩ 9).1.GetByID "a" = .ok r :=
  update_merges_present_fields (NewInMemoryTodoStorage.Create ⟨"a", "t", "d", false, 5, 5⟩).1
    "a" ⟨"a", "t", "d", false, 5, 5⟩ ⟨none, some "e", some true⟩ 9 (by decide)

theorem create_error_isSome_iff (s : InMemoryTodoStorage) (todo : Todo) :
    (s.Create todo).2.isSome ↔ todo.ID ∈ s.todos := by
  unfold InMemoryTodoStorage.Create
  cases h : s.todos.lookup todo.ID with
  | none => simpa using AList.lookup_eq_none.1 h
  | some t => simpa using mem_of_lookup_eq_some h

theorem create_error_eq_none_iff (s : InMemoryTodoStorage) (todo : Todo) :
    (s.Create todo).2 = none ↔ todo.ID ∉ s.todos := by
  rw [← create_error_isSome_iff, Option.not_isSome_iff_eq_none]

/-- C2. `Create` returns an error exactly when an entity with the todo's ID is
already stored, and then the store is unchanged. -/
theorem create_error_iff_duplicate (s : InMemoryTodoStorage) (todo : Todo) :
    ((s.Create todo).2.isSome ↔ todo.ID ∈ s.todos) ∧
      ((s.Create todo).2.isSome → (s.Create todo).1 = s) := by
  unfold InMemoryTodoStorage.Create
  cases h : s.todos.lookup todo.ID with
  | none => simpa using AList.lookup_eq_none.1 h
  | some t => simpa using mem_of_lookup_eq_some h

theorem create_error_iff_duplicate_witness :
    ((NewInMemoryTodoStorage.Create ⟨"a", "t", "d", false, 5, 5⟩).1.Create
        ⟨"a", "x", "y", true, 7, 7⟩).2.isSome ∧
      ((NewInMemoryTodoStorage.Create ⟨"a", "t", "d", false, 5, 5⟩).1.Create
        ⟨"a", "x", "y", true, 7, 7⟩).1 =
        (NewInMemoryTodoStorage.Create ⟨"a", "t", "d", false, 5, 5⟩).1 :=
  ⟨by decide,
    (create_error_iff_duplicate (NewInMemoryTodoStorage.Create ⟨"a", "t", "d", false, 5, 5⟩).1
      ⟨"a", "x", "y", true, 7, 7⟩).2 (by decide)⟩

/-- C3. `Delete` returns an error exactly when the ID is absent; after a
successful `Delete`, `GetByID` of that ID and a second `Delete` of it both
return the not-found error. -/
theorem delete_error_iff_absent (s : InMemoryTodoStorage) (id : String) :
    ((s.Delete id).2.isSome ↔ id ∉ s.todos) ∧
      ((s.Delete id).2 = none →
        (s.Delete id).1.GetByID id = .error (errNotFound id) ∧
        ((s.Delete id).1.Delete id).2 = some (errNotFound id)) := by
  unfold InMemoryTodoStorage.Delete
  cases h : s.todos.lookup id with
  | none => simpa using AList.lookup_eq_none.1 h
  | some t =>
    have hm := mem_of_lookup_eq_some h
    simp [hm, InMemoryTodoStorage.GetByID, InMemoryTodoStorage.Delete, AList.lookup_erase]

theorem delete_error_iff_absent_witness :
    ((NewInMemoryTodoStorage.Create ⟨"a", "t", "d", false, 5, 5⟩).1.Delete "a").2 = none ∧
      ((NewInMemoryTodoStorage.Create ⟨"a", "t", "d", false, 5, 5⟩).1.Delete "a").1.GetByID "a"
        = .error (errNotFound "a") ∧
      (((NewInMemoryTodoStorage.Create ⟨"a", "t", "d", false, 5, 5⟩).1.Delete "a").1.Delete
        "a").2 = some (errNotFound "a") :=
  ⟨by decide,
    (delete_error_iff_absent (NewInMemoryTodoStorage.Create ⟨"a", "t", "d", false, 5, 5⟩).1
      "a").2 (by decide)⟩

/-! ### Counting the stored entities -/

theorem getAll_eq (s : InMemoryTodoStorage) :
    s.GetAll = .ok (s.todos.entries.map (fun e => e.2)) := rfl

theorem length_keys (m : AList (fun _ : String => Todo)) :
    m.keys.length = m.entries.length := by
  simp [AList.keys, List.keys]

theorem create_size (s : InMemoryTodoStorage) (todo : Todo) :
    (s.Create todo).1.todos.keys.length =
      s.todos.keys.length + (if (s.Create todo).2.isNone then 1 else 0) := by
  unfold InMemoryTodoStorage.Create
  cases h : s.todos.lookup todo.ID with
  | some t => simp
  | none =>
    have hm : todo.ID ∉ s.todos := AList.lookup_eq_none.1 h
    have hk : todo.ID ∉ s.todos.keys := fun hk => hm (AList.mem_keys.2 hk)
    simp [AList.keys_insert, List.erase_of_not_mem hk]

theorem delete_size (s : InMemoryTodoStorage) (id : String) :
    (s.Delete id).1.todos.keys.length + (if (s.Delete id).2.isNone then 1 else 0) =
      s.todos.keys.length := by
  unfold InMemoryTodoStorage.Delete
  cases h : s.todos.lookup id with
  | none => simp
  | some t =>
    have hk : id ∈ s.todos.keys := AList.mem_keys.1 (mem_of_lookup_eq_some h)
    have hpos : 0 < s.todos.keys.length := List.length_pos_of_mem hk
    simp only [AList.keys_erase, List.length_erase_of_mem hk, Option.isNone_none, if_true]
    omega

theorem update_size (s : InMemoryTodoStorage) (id : String) (u : UpdateTodoRequest)
    (now : Time) : (s.Update id u now).1.todos.keys.length = s.todos.keys.length := by
  cases h : s.todos.lookup id with
  | none => rw [update_of_absent s id u now h]
  | some t => rw [update_of_lookup s id t u now h, AList.keys_replace]

/-- Over any sequence of storage calls, the number of stored entities grows by
the successful creates and shrinks by the successful deletes. -/
theorem calls_size (cs : List StorageCall) :
    ∀ s : InMemoryTodoStorage,
      (s.calls cs).1.todos.keys.length + successfulDeletes (s.calls cs).2 =
        s.todos.keys.length + successfulCreates (s.calls cs).2 := by
  induction cs with
  | nil => intro s; simp [InMemoryTodoStorage.calls, successfulDeletes, successfulCreates]
  | cons c cs ih =>
    intro s
    have ih1 := ih (s.call c).1
    simp only [InMemoryTodoStorage.calls, successfulDeletes, successfulCreates,
      List.countP_cons] at ih1 ⊢
    cases c with
    | Create todo =>
      have := create_size s todo
      simp only [InMemoryTodoStorage.call] at ih1 ⊢
      by_cases hc : (s.Create todo).2.isNone = true <;> simp [hc] at this ⊢ <;> omega
    | GetByID id =>
      simp only [InMemoryTodoStorage.call] at ih1 ⊢
      simpa using ih1
    | GetAll =>
      simp only [InMemoryTodoStorage.call] at ih1 ⊢
      simpa using ih1
    | Update id u now =>
      have := update_size s id u now
      simp only [InMemoryTodoStorage.call] at ih1 ⊢
      simp only [this] at ih1
      simpa using ih1
    | Delete id =>
      have := delete_size s id
      simp only [InMemoryTodoStorage.call] at ih1 ⊢
      by_cases hc : (s.Delete id).2.isNone = true <;> simp [hc] at this ⊢ <;> omega

/-- C4. On a new store `GetAll` returns the empty list without error and the
list handler reports total 0. After any sequence of storage calls from the new
store, with N successful creates and M successful deletes, M ≤ N, `GetAll`
returns N − M entities without error, and the list handler answers 200 with
that data and a total equal to its length. -/
theorem getAll_length_after_calls (cs : List StorageCall) :
    NewInMemoryTodoStorage.GetAll = .ok [] ∧
    (NewTodoHandler NewInMemoryTodoStorage).GetAllTodos =
      ⟨StatusOK, .list ⟨true, "Todos retrieved successfully", [], 0⟩⟩ ∧
    successfulDeletes (NewInMemoryTodoStorage.calls cs).2 ≤
      successfulCreates (NewInMemoryTodoStorage.calls cs).2 ∧
    ∃ l, (NewInMemoryTodoStorage.calls cs).1.GetAll = .ok l ∧
      l.length = successfulCreates (NewInMemoryTodoStorage.calls cs).2 -
        successfulDeletes (NewInMemoryTodoStorage.calls cs).2 ∧
      ∃ b, (NewTodoHandler (NewInMemoryTodoStorage.calls cs).1).GetAllTodos =
          ⟨StatusOK, .list b⟩ ∧
        b.Success = true ∧ b.Data = l ∧ b.Total = b.Data.length := by
  have h := calls_size cs NewInMemoryTodoStorage
  have h0 : NewInMemoryTodoStorage.todos.keys.length = 0 := rfl
  rw [h0, length_keys] at h
  refine ⟨rfl, rfl, by omega, _, getAll_eq _, ?_, _, rfl, rfl, rfl, rfl⟩
  rw [List.length_map]
  omega

/-! ## Request handler -/

theorem createTodo_invalid_body (h : TodoHandler) (now : Time) (nano : Int) :
    h.CreateTodo none now nano = (h, sendErrorResponse StatusBadRequest "Invalid request body") :=
  rfl

theorem createTodo_empty_title (h : TodoHandler) (req : CreateTodoRequest) (now : Time)
    (nano : Int) (ht : req.Title = "") :
    h.CreateTodo (some req) now nano =
      (h, sendErrorResponse StatusBadRequest "Title is required") := by
  simp only [TodoHandler.CreateTodo, ht, if_true]

theorem createTodo_of_present (h : TodoHandler) (req : CreateTodoRequest) (now : Time)
    (nano : Int) (ht : req.Title ≠ "") (hp : generateID nano ∈ h.storage.todos) :
    h.CreateTodo (some req) now nano =
      (h, sendErrorResponse StatusInternalServerError "Failed to create todo") := by
  obtain ⟨t, hl⟩ := Option.isSome_iff_exists.1 (AList.lookup_isSome.2 hp)
  simp only [TodoHandler.CreateTodo, ht, if_false, InMemoryTodoStorage.Create, hl]

theorem createTodo_of_absent (h : TodoHandler) (req : CreateTodoRequest) (now : Time)
    (nano : Int) (ht : req.Title ≠ "") (hp : generateID nano ∉ h.storage.todos) :
    h.CreateTodo (some req) now nano =
      (⟨⟨AList.insert (generateID nano)
          (Todo.mk (generateID nano) req.Title req.Description false now now) h.storage.todos⟩⟩,
        sendSuccessResponse StatusCreated "Todo created successfully"
          (some ⟨generateID nano, req.Title, req.Description, false, now, now⟩)) := by
  have hl := AList.lookup_eq_none.2 hp
  simp only [TodoHandler.CreateTodo, ht, if_false, InMemoryTodoStorage.Create, hl]

/-- A 201 from `CreateTodo` pins down the request, the entity and the handler
afterwards. -/
theorem createTodo_created (h : TodoHandler) (body : Option CreateTodoRequest) (now : Time)
    (nano : Int) (hs : (h.CreateTodo body now nano).2.StatusCode = StatusCreated) :
    ∃ req, body = some req ∧ req.Title ≠ "" ∧ generateID nano ∉ h.storage.todos ∧
      h.CreateTodo body now nano =
        (⟨⟨AList.insert (generateID nano)
            (Todo.mk (generateID nano) req.Title req.Description false now now)
            h.storage.todos⟩⟩,
          sendSuccessResponse StatusCreated "Todo created successfully"
            (some ⟨generateID nano, req.Title, req.Description, false, now, now⟩)) := by
  cases body with
  | none =>
    rw [createTodo_invalid_body] at hs
    exact absurd hs (by simp [sendErrorResponse, StatusBadRequest, StatusCreated])
  | some req =>
    by_cases ht : req.Title = ""
    · rw [createTodo_empty_title h req now nano ht] at hs
      exact absurd hs (by simp [sendErrorResponse, StatusBadRequest, StatusCreated])
    · by_cases hp : generateID nano ∈ h.storage.todos
      · rw [createTodo_of_present h req now nano ht hp] at hs
        exact absurd hs (by simp [sendErrorResponse, StatusInternalServerError, StatusCreated])
      · exact ⟨req, rfl, ht, hp, createTodo_of_absent h req now nano ht hp⟩

/-- C5. Round trip: when `CreateTodo` answers 201 with entity `e`, fetching
`e.ID` right after, through `GetByID` or through `GetTodo`, succeeds and
returns an entity equal to `e`. -/
theorem createTodo_then_get_roundtrip (h : TodoHandler) (body : Option CreateTodoRequest)
    (now : Time) (nano : Int) (e : Todo)
    (hs : (h.CreateTodo body now nano).2.StatusCode = StatusCreated)
    (he : (h.CreateTodo body now nano).2.data = some e) :
    (h.CreateTodo body now nano).1.storage.GetByID e.ID = .ok e ∧
      (h.CreateTodo body now nano).1.GetTodo e.ID =
        sendSuccessResponse StatusOK "Todo retrieved successfully" (some e) := by
  obtain ⟨req, -, -, -, hc⟩ := createTodo_created h body now nano hs
  rw [hc] at he ⊢
  have he' : (⟨generateID nano, req.Title, req.Description, false, now, now⟩ : Todo) = e :=
    Option.some.inj he
  subst he'
  simp only [TodoHandler.GetTodo, InMemoryTodoStorage.GetByID, AList.lookup_insert, and_self]

theorem createTodo_then_get_roundtrip_witness :
    ((NewTodoHandler NewInMemoryTodoStorage).CreateTodo (some ⟨"Learn Go", "basics"⟩) 7
        8).1.storage.GetByID "todo_8" = .ok ⟨"todo_8", "Learn Go", "basics", false, 7, 7⟩ ∧
      ((NewTodoHandler NewInMemoryTodoStorage).CreateTodo (some ⟨"Learn Go", "basics"⟩) 7
        8).1.GetTodo "todo_8" =
        sendSuccessResponse StatusOK "Todo retrieved successfully"
          (some ⟨"todo_8", "Learn Go", "basics", false, 7, 7⟩) :=
  createTodo_then_get_roundtrip (NewTodoHandler NewInMemoryTodoStorage)
    (some ⟨"Learn Go", "basics"⟩) 7 8 ⟨"todo_8", "Learn Go", "basics", false, 7, 7⟩
    (by decide) (by decide)

/-- C6. For a create request whose body parses, `CreateTodo` answers 400, with
success=false and no data, exactly when the title is empty. Otherwise it
answers 201 when the storage `Create` of the built todo succeeds, with
success=true and an entity that carries the request's title and description,
completed=false and createdAt = updatedAt, and 500 when it fails. On 400 and
on 500 the store is unchanged. -/
theorem createTodo_status_mapping (h : TodoHandler) (req : CreateTodoRequest) (now : Time)
    (nano : Int) :
    (((h.CreateTodo (some req) now nano).2.StatusCode = StatusBadRequest ∧
        (h.CreateTodo (some req) now nano).2.success = false ∧
        (h.CreateTodo (some req) now nano).2.data = none) ↔ req.Title = "") ∧
    ((h.CreateTodo (some req) now nano).2.StatusCode = StatusBadRequest ↔ req.Title = "") ∧
    (req.Title ≠ "" →
      (h.storage.Create ⟨generateID nano, req.Title, req.Description, false, now, now⟩).2
          = none →
        (h.CreateTodo (some req) now nano).2.StatusCode = StatusCreated ∧
        (h.CreateTodo (some req) now nano).2.success = true ∧
        ∃ e, (h.CreateTodo (some req) now nano).2.data = some e ∧
          e.Title = req.Title ∧ e.Description = req.Description ∧ e.Completed = false ∧
          e.CreatedAt = e.UpdatedAt) ∧
    (req.Title ≠ "" →
      (h.storage.Create ⟨generateID nano, req.Title, req.Description, false, now, now⟩).2
          ≠ none →
        (h.CreateTodo (some req) now nano).2.StatusCode = StatusInternalServerError ∧
        (h.CreateTodo (some req) now nano).2.success = false ∧
        (h.CreateTodo (some req) now nano).2.data = none) ∧
    ((h.CreateTodo (some req) now nano).2.StatusCode = StatusBadRequest ∨
        (h.CreateTodo (some req) now nano).2.StatusCode = StatusInternalServerError →
      (h.CreateTodo (some req) now nano).1 = h) := by
  by_cases ht : req.Title = ""
  · rw [createTodo_empty_title h req now nano ht]
    simp [ht, sendErrorResponse, Response.success, Response.data]
  · by_cases hp : generateID nano ∈ h.storage.todos
    · have hc := (create_error_eq_none_iff h.storage
        ⟨generateID nano, req.Title, req.Description, false, now, now⟩).not.2 (not_not.2 hp)
      rw [createTodo_of_present h req now nano ht hp]
      simp [ht, hc, sendErrorResponse, Response.success, Response.data, StatusBadRequest,
        StatusInternalServerError]
    · have hc := (create_error_eq_none_iff h.storage
        ⟨generateID nano, req.Title, req.Description, false, now, now⟩).2 hp
      rw [createTodo_of_absent h req now nano ht hp]
      simp [ht, hc, sendSuccessResponse, Response.success, Response.data, StatusBadRequest,
        StatusInternalServerError, StatusCreated]

theorem createTodo_status_mapping_witness :
    ((NewTodoHandler NewInMemoryTodoStorage).CreateTodo (some ⟨"Learn Go", "basics"⟩) 7
        8).2.StatusCode = StatusCreated ∧
      ((NewTodoHandler NewInMemoryTodoStorage).CreateTodo (some ⟨"Learn Go", "basics"⟩) 7
        8).2.success = true ∧
      ∃ e, ((NewTodoHandler NewInMemoryTodoStorage).CreateTodo (some ⟨"Learn Go", "basics"⟩) 7
          8).2.data = some e ∧
        e.Title = "Learn Go" ∧ e.Description = "basics" ∧ e.Completed = false ∧
        e.CreatedAt = e.UpdatedAt :=
  (createTodo_status_mapping (NewTodoHandler NewInMemoryTodoStorage) ⟨"Learn Go", "basics"⟩ 7
    8).2.2.1 (by decide) (by decide)

/-! ## Invariants of the store -/

theorem allStored_iff_lookup (P : String → Todo → Prop) (s : InMemoryTodoStorage) :
    s.AllStored P ↔ ∀ k t, s.todos.lookup k = some t → P k t := by
  constructor
  · intro h k t hl
    exact h ⟨k, t⟩ (AList.mem_lookup_iff.1 hl)
  · rintro h ⟨k, t⟩ he
    exact h k t (AList.mem_lookup_iff.2 he)

theorem allStored_new (P : String → Todo → Prop) : NewInMemoryTodoStorage.AllStored P := by
  intro e he
  simp [NewInMemoryTodoStorage] at he

theorem allStored_insert (P : String → Todo → Prop) (s : InMemoryTodoStorage) (todo : Todo)
    (hs : s.AllStored P) (ht : P todo.ID todo) :
    InMemoryTodoStorage.AllStored P ⟨s.todos.insert todo.ID todo⟩ := by
  rw [allStored_iff_lookup] at hs ⊢
  intro k t hl
  by_cases hk : k = todo.ID
  · subst hk
    rw [AList.lookup_insert] at hl
    exact Option.some.inj hl ▸ ht
  · rw [AList.lookup_insert_ne hk] at hl
    exact hs k t hl

theorem allStored_create (P : String → Todo → Prop) (s : InMemoryTodoStorage) (todo : Todo)
    (hs : s.AllStored P) (ht : P todo.ID todo) : (s.Create todo).1.AllStored P := by
  unfold InMemoryTodoStorage.Create
  cases h : s.todos.lookup todo.ID with
  | some t => exact hs
  | none => exact allStored_insert P s todo hs ht

theorem allStored_delete (P : String → Todo → Prop) (s : InMemoryTodoStorage) (id : String)
    (hs : s.AllStored P) : (s.Delete id).1.AllStored P := by
  unfold InMemoryTodoStorage.Delete
  cases h : s.todos.lookup id with
  | none => exact hs
  | some t =>
    rw [allStored_iff_lookup] at hs ⊢
    intro k t hl
    by_cases hk : k = id
    · subst hk
      simp [AList.lookup_erase] at hl
    · simp only [AList.lookup_erase_ne hk] at hl
      exact hs k t hl

theorem allStored_update (P : String → Todo → Prop) (s : InMemoryTodoStorage) (id : String)
    (u : UpdateTodoRequest) (now : Time) (hs : s.AllStored P)
    (hr : ∀ r, (s.Update id u now).2 = .ok r → P id r) :
    (s.Update id u now).1.AllStored P := by
  cases h : s.todos.lookup id with
  | none => rw [update_of_absent s id u now h]; exact hs
  | some t =>
    have hm := mem_of_lookup_eq_some h
    rw [update_of_lookup s id t u now h] at hr ⊢
    have hr' := hr _ rfl
    rw [allStored_iff_lookup] at hs ⊢
    intro k t' hl
    by_cases hk : k = id
    · subst hk
      simp only [lookup_replace_self hm] at hl
      exact Option.some.inj hl ▸ hr'
    · simp only [lookup_replace_ne hk] at hl
      exact hs k t' hl

/-- C7, as the code has it. `Update` on a stored ID sets `updatedAt` to the
clock reading it takes: the stored entity afterwards carries that reading, so
`updatedAt` strictly increases whenever the reading is later than the previous
`updatedAt` (and only then). -/
theorem update_sets_updatedAt_to_reading (s : InMemoryTodoStorage) (id : String) (t : Todo)
    (u : UpdateTodoRequest) (now : Time) (h : s.todos.lookup id = some t) :
    ∃ r, (s.Update id u now).2 = .ok r ∧ (s.Update id u now).1.GetByID id = .ok r ∧
      r.UpdatedAt = now ∧ (t.UpdatedAt < r.UpdatedAt ↔ t.UpdatedAt < now) := by
  have hm : id ∈ s.todos := mem_of_lookup_eq_some h
  refine ⟨_, congrArg Prod.snd (update_of_lookup s id t u now h), ?_, rfl, Iff.rfl⟩
  rw [update_of_lookup s id t u now h]
  simp only [InMemoryTodoStorage.GetByID, lookup_replace_self hm]

theorem update_sets_updatedAt_to_reading_witness :
    ∃ r, ((NewInMemoryTodoStorage.Create ⟨"a", "t", "d", false, 5, 5⟩).1.Update "a"
        ⟨none, none, none⟩ 9).2 = .ok r ∧
      ((NewInMemoryTodoStorage.Create ⟨"a", "t", "d", false, 5, 5⟩).1.Update "a"
        ⟨none, none, none⟩ 9).1.GetByID "a" = .ok r ∧
      r.UpdatedAt = 9 ∧ ((5 : Int) < r.UpdatedAt ↔ (5 : Int) < 9) :=
  update_sets_updatedAt_to_reading
    (NewInMemoryTodoStorage.Create ⟨"a", "t", "d", false, 5, 5⟩).1
    "a" ⟨"a", "t", "d", false, 5, 5⟩ ⟨none, none, none⟩ 9 (by decide)

/-- C7 fails as stated. A todo is created through the handler at clock reading
5; an update without fields that reads the clock at the same instant 5 succeeds
and leaves `updatedAt` at 5, not strictly greater than before. -/
theorem update_same_reading_not_strict :
    ∃ t r,
      ((NewTodoHandler NewInMemoryTodoStorage).CreateTodo (some ⟨"a", "d"⟩) 5
        5).1.storage.todos.lookup "todo_5" = some t ∧
      (((NewTodoHandler NewInMemoryTodoStorage).CreateTodo (some ⟨"a", "d"⟩) 5
        5).1.storage.Update "todo_5" ⟨none, none, none⟩ 5).2 = .ok r ∧
      (((NewTodoHandler NewInMemoryTodoStorage).CreateTodo (some ⟨"a", "d"⟩) 5
        5).1.storage.Update "todo_5" ⟨none, none, none⟩ 5).1.todos.lookup "todo_5" = some r ∧
      ¬ (t.UpdatedAt < r.UpdatedAt) :=
  ⟨⟨"todo_5", "a", "d", false, 5, 5⟩, ⟨"todo_5", "a", "d", false, 5, 5⟩,
    by decide, rfl, by decide, by decide⟩

theorem updateTodo_storage (h : TodoHandler) (id : String) (req : UpdateTodoRequest)
    (now : Time) :
    (h.UpdateTodo id (some req) now).1.storage = (h.storage.Update id req now).1 := by
  simp only [TodoHandler.UpdateTodo]
  generalize h.storage.Update id req now = o
  rcases o with ⟨s, _ | _⟩ <;> rfl

theorem deleteTodo_storage (h : TodoHandler) (id : String) :
    (h.DeleteTodo id).1.storage = (h.storage.Delete id).1 := by
  unfold TodoHandler.DeleteTodo
  generalize h.storage.Delete id = o
  rcases o with ⟨s, _ | _⟩ <;> rfl

theorem createTodo_storage (h : TodoHandler) (body : Option CreateTodoRequest) (now : Time)
    (nano : Int) :
    (h.CreateTodo body now nano).1.storage = h.storage ∨
      ∃ req, body = some req ∧ req.Title ≠ "" ∧
        (h.CreateTodo body now nano).1.storage =
          (h.storage.Create
            ⟨generateID nano, req.Title, req.Description, false, now, now⟩).1 := by
  cases body with
  | none => exact Or.inl rfl
  | some req =>
    by_cases ht : req.Title = ""
    · rw [createTodo_empty_title h req now nano ht]; exact Or.inl rfl
    · refine Or.inr ⟨req, rfl, ht, ?_⟩
      simp only [TodoHandler.CreateTodo, ht, if_false]
      generalize h.storage.Create
        ⟨generateID nano, req.Title, req.Description, false, now, now⟩ = o
      rcases o with ⟨s, _ | _⟩ <;> rfl

theorem allStored_createTodo (P : String → Todo → Prop) (h : TodoHandler)
    (body : Option CreateTodoRequest) (now : Time) (nano : Int) (hs : h.storage.AllStored P)
    (hP : ∀ req, body = some req → req.Title ≠ "" →
      P (generateID nano) ⟨generateID nano, req.Title, req.Description, false, now, now⟩) :
    (h.CreateTodo body now nano).1.storage.AllStored P := by
  rcases createTodo_storage h body now nano with e | ⟨req, hb, ht, e⟩
  · rw [e]; exact hs
  · rw [e]; exact allStored_create P h.storage _ hs (hP req hb ht)

theorem allStored_updateTodo (P : String → Todo → Prop) (h : TodoHandler) (id : String)
    (body : Option UpdateTodoRequest) (now : Time) (hs : h.storage.AllStored P)
    (hr : ∀ req r, body = some req → (h.storage.Update id req now).2 = .ok r → P id r) :
    (h.UpdateTodo id body now).1.storage.AllStored P := by
  cases body with
  | none => exact hs
  | some req =>
    rw [updateTodo_storage]
    exact allStored_update P h.storage id req now hs (fun r => hr req r rfl)

theorem allStored_deleteTodo (P : String → Todo → Prop) (h : TodoHandler) (id : String)
    (hs : h.storage.AllStored P) : (h.DeleteTodo id).1.storage.AllStored P := by
  rw [deleteTodo_storage]
  exact allStored_delete P h.storage id hs

/-- What `Update` returns on success, in terms of the entity stored before. -/
theorem update_ok_inv (s : InMemoryTodoStorage) (id : String) (u : UpdateTodoRequest)
    (now : Time) (r : Todo) (h : (s.Update id u now).2 = .ok r) :
    ∃ t, s.todos.lookup id = some t ∧
      r = ⟨t.ID, u.Title.getD t.Title, u.Description.getD t.Description,
        u.Completed.getD t.Completed, t.CreatedAt, now⟩ := by
  cases hl : s.todos.lookup id with
  | none => rw [update_of_absent s id u now hl] at h; cases h
  | some t =>
    rw [update_of_lookup s id t u now hl] at h
    exact ⟨t, rfl, (Except.ok.inj h).symm⟩

/-- C8, as the code has it. `updatedAt >= createdAt` holds on the new store and
is preserved by the storage `Create` of a todo that itself satisfies it, by
`Delete`, by `Update` when the clock reading it takes is not earlier than the
`createdAt` of the entity updated, and by the handler's `CreateTodo`,
`DeleteTodo` and (under the same condition on the reading) `UpdateTodo`. -/
theorem updatedNotBeforeCreated_preserved :
    NewInMemoryTodoStorage.UpdatedNotBeforeCreated ∧
    (∀ (s : InMemoryTodoStorage) (todo : Todo), s.UpdatedNotBeforeCreated →
      todo.CreatedAt ≤ todo.UpdatedAt → (s.Create todo).1.UpdatedNotBeforeCreated) ∧
    (∀ (s : InMemoryTodoStorage) (id : String) (u : UpdateTodoRequest) (now : Time),
      s.UpdatedNotBeforeCreated →
      (∀ t, s.todos.lookup id = some t → t.CreatedAt ≤ now) →
      (s.Update id u now).1.UpdatedNotBeforeCreated) ∧
    (∀ (s : InMemoryTodoStorage) (id : String), s.UpdatedNotBeforeCreated →
      (s.Delete id).1.UpdatedNotBeforeCreated) ∧
    (∀ (h : TodoHandler) (body : Option CreateTodoRequest) (now : Time) (nano : Int),
      h.storage.UpdatedNotBeforeCreated →
      (h.CreateTodo body now nano).1.storage.UpdatedNotBeforeCreated) ∧
    (∀ (h : TodoHandler) (id : String) (body : Option UpdateTodoRequest) (now : Time),
      h.storage.UpdatedNotBeforeCreated →
      (∀ t, h.storage.todos.lookup id = some t → t.CreatedAt ≤ now) →
      (h.UpdateTodo id body now).1.storage.UpdatedNotBeforeCreated) ∧
    (∀ (h : TodoHandler) (id : String), h.storage.UpdatedNotBeforeCreated →
      (h.DeleteTodo id).1.storage.UpdatedNotBeforeCreated) := by
  refine ⟨allStored_new _, ?_, ?_, ?_, ?_, ?_, ?_⟩
  · intro s todo hs ht
    exact allStored_create _ s todo hs ht
  · intro s id u now hs hn
    refine allStored_update _ s id u now hs ?_
    intro r hr
    obtain ⟨t, hl, rfl⟩ := update_ok_inv s id u now r hr
    exact hn t hl
  · intro s id hs
    exact allStored_delete _ s id hs
  · intro h body now nano hs
    exact allStored_createTodo _ h body now nano hs (fun _ _ _ => le_refl now)
  · intro h id body now hs hn
    refine allStored_updateTodo _ h id body now hs ?_
    intro req r _ hr
    obtain ⟨t, hl, rfl⟩ := update_ok_inv h.storage id req now r hr
    exact hn t hl
  · intro h id hs
    exact allStored_deleteTodo _ h id hs

theorem updatedNotBeforeCreated_preserved_witness :
    ((NewInMemoryTodoStorage.Create ⟨"a", "t", "d", false, 5, 6⟩).1.Update "a"
        ⟨some "u", none, none⟩ 9).1.UpdatedNotBeforeCreated ∧
      (((NewTodoHandler NewInMemoryTodoStorage).CreateTodo (some ⟨"a", "d"⟩) 5 5).1.UpdateTodo
        "todo_5" (some ⟨none, none, some true⟩) 5).1.storage.UpdatedNotBeforeCreated :=
  ⟨updatedNotBeforeCreated_preserved.2.2.1
      (NewInMemoryTodoStorage.Create ⟨"a", "t", "d", false, 5, 6⟩).1 "a"
      ⟨some "u", none, none⟩ 9 (by decide) (by intro t ht; cases (by decide : AList.lookup "a"
        (NewInMemoryTodoStorage.Create ⟨"a", "t", "d", false, 5, 6⟩).1.todos
          = some ⟨"a", "t", "d", false, 5, 6⟩).symm.trans ht; decide),
    updatedNotBeforeCreated_preserved.2.2.2.2.2.1
      ((NewTodoHandler NewInMemoryTodoStorage).CreateTodo (some ⟨"a", "d"⟩) 5 5).1 "todo_5"
      (some ⟨none, none, some true⟩) 5 (by decide)
      (by intro t ht; cases (by decide : AList.lookup "todo_5"
        ((NewTodoHandler NewInMemoryTodoStorage).CreateTodo (some ⟨"a", "d"⟩) 5
          5).1.storage.todos = some ⟨"todo_5", "a", "d", false, 5, 5⟩).symm.trans ht; decide)⟩

/-- C8 fails as stated. The storage `Create` accepts any todo: on the new store,
where the invariant holds, creating a todo with createdAt 5 and updatedAt 3
stores an entity with `updatedAt < createdAt`. Likewise an `UpdateTodo` whose
clock reading 3 is earlier than the `createdAt` 5 of the entity it updates (the
wall clock was set back in between) stores `updatedAt < createdAt`. -/
theorem updatedNotBeforeCreated_not_preserved :
    NewInMemoryTodoStorage.UpdatedNotBeforeCreated ∧
    ¬ (NewInMemoryTodoStorage.Create
      ⟨"a", "t", "d", false, 5, 3⟩).1.UpdatedNotBeforeCreated ∧
    ((NewTodoHandler NewInMemoryTodoStorage).CreateTodo (some ⟨"a", "d"⟩) 5
      5).1.storage.UpdatedNotBeforeCreated ∧
    ¬ (((NewTodoHandler NewInMemoryTodoStorage).CreateTodo (some ⟨"a", "d"⟩) 5 5).1.UpdateTodo
      "todo_5" (some ⟨none, none, none⟩) 3).1.storage.UpdatedNotBeforeCreated := by
  refine ⟨by decide, by decide, by decide, by decide⟩

/-! ## Identifiers

`generateID` formats its clock reading in decimal; distinct readings give
distinct IDs. The decimal digits are read back by a left fold. -/

theorem digitChar_value (k : Nat) (hk : k < 10) : (Nat.digitChar k).toNat - 48 = k := by
  interval_cases k <;> rfl

theorem toDigitsCore_append (fuel : Nat) :
    ∀ (n : Nat) (ds : List Char),
      Nat.toDigitsCore 10 fuel n ds = Nat.toDigitsCore 10 fuel n [] ++ ds := by
  induction fuel with
  | zero => intro n ds; simp [Nat.toDigitsCore]
  | succ fuel ih =>
    intro n ds
    simp only [Nat.toDigitsCore]
    split
    · simp
    · rw [ih (n / 10) (_ :: ds), ih (n / 10) [_]]
      simp

theorem decode_toDigitsCore (fuel : Nat) :
    ∀ n : Nat, n < fuel →
      (Nat.toDigitsCore 10 fuel n []).foldl (fun a c => a * 10 + (c.toNat - 48)) 0 = n := by
  induction fuel with
  | zero => intro n hn; omega
  | succ fuel ih =>
    intro n hn
    simp only [Nat.toDigitsCore]
    split
    · rename_i h0
      have : n % 10 = n := by omega
      simp only [List.foldl_cons, List.foldl_nil, Nat.zero_mul, Nat.zero_add]
      rw [digitChar_value _ (Nat.mod_lt _ (by decide)), this]
    · rename_i h0
      rw [toDigitsCore_append, List.foldl_append, ih (n / 10) (by omega)]
      simp only [List.foldl_cons, List.foldl_nil]
      rw [digitChar_value _ (Nat.mod_lt _ (by decide))]
      omega

theorem decode_repr (n : Nat) :
    (Nat.repr n).data.foldl (fun a c => a * 10 + (c.toNat - 48)) 0 = n := by
  simp only [Nat.repr, List.asString, Nat.toDigits]
  exact decode_toDigitsCore (n + 1) n (Nat.lt_succ_self n)

theorem nat_repr_injective {a b : Nat} (h : Nat.repr a = Nat.repr b) : a = b := by
  rw [← decode_repr a, ← decode_repr b, h]

theorem int_toString_injective {a b : Int} (h : toString a = toString b) : a = b := by
  cases a with
  | ofNat a =>
    cases b with
    | ofNat b => exact congrArg Int.ofNat (nat_repr_injective h)
    | negSucc b =>
      exfalso
      have h' : Nat.repr a = "-" ++ Nat.repr (b + 1) := h
      have hd := congrArg (fun s => s.data.foldl (fun a c => a * 10 + (c.toNat - 48)) 0) h'
      simp only [String.data_append, List.foldl_append, decode_repr] at hd
      have hd' : a = b + 1 := by
        rw [hd]
        exact decode_repr (b + 1)
      subst hd'
      have hl := congrArg (fun s => s.data.length) h'
      simp at hl
  | negSucc a =>
    cases b with
    | ofNat b =>
      exfalso
      have h' : "-" ++ Nat.repr (a + 1) = Nat.repr b := h
      have hd := congrArg (fun s => s.data.foldl (fun a c => a * 10 + (c.toNat - 48)) 0) h'
      simp only [String.data_append, List.foldl_append, decode_repr] at hd
      have hd' : a + 1 = b := by
        rw [← hd]
        exact (decode_repr (a + 1)).symm
      subst hd'
      have hl := congrArg (fun s => s.data.length) h'
      simp at hl
    | negSucc b =>
      have h' : "-" ++ Nat.repr (a + 1) = "-" ++ Nat.repr (b + 1) := h
      have hd := congrArg String.data h'
      simp only [String.data_append, List.append_cancel_left_eq] at hd
      have := nat_repr_injective (String.ext hd)
      have : a = b := by omega
      rw [this]

theorem generateID_injective {a b : Int} (h : generateID a = generateID b) : a = b := by
  unfold generateID at h
  have hd := congrArg String.data h
  simp only [String.data_append, List.append_cancel_left_eq] at hd
  exact int_toString_injective (String.ext hd)

theorem generateID_map_nodup {l : List Int} (h : l.Nodup) : (l.map generateID).Nodup :=
  h.map (fun _ _ e => generateID_injective e)

/-! ## Sequences of requests -/

theorem serveAll_cons (h : TodoHandler) (r : Request) (rs : List Request) :
    h.serveAll (r :: rs) =
      (((h.serve r).1.serveAll rs).1, (r, (h.serve r).2) :: ((h.serve r).1.serveAll rs).2) :=
  rfl

theorem serve_idsMatchKeys (h : TodoHandler) (r : Request) (hs : h.storage.IDsMatchKeys) :
    (h.serve r).1.storage.IDsMatchKeys := by
  cases r with
  | CreateTodo body now nano =>
    exact allStored_createTodo _ h body now nano hs (fun _ _ _ => rfl)
  | GetAllTodos => exact hs
  | GetTodo id => exact hs
  | UpdateTodo id body now =>
    refine allStored_updateTodo _ h id body now hs ?_
    intro req r _ hr
    obtain ⟨t, hl, rfl⟩ := update_ok_inv h.storage id req now r hr
    exact (allStored_iff_lookup _ _).1 hs id t hl
  | DeleteTodo id => exact allStored_deleteTodo _ h id hs

theorem serveAll_idsMatchKeys (rs : List Request) :
    ∀ h : TodoHandler, h.storage.IDsMatchKeys → (h.serveAll rs).1.storage.IDsMatchKeys := by
  induction rs with
  | nil => intro h hs; exact hs
  | cons r rs ih =>
    intro h hs
    rw [serveAll_cons]
    exact ih _ (serve_idsMatchKeys h r hs)

theorem stored_ids_eq_keys (s : InMemoryTodoStorage) (hs : s.IDsMatchKeys) :
    s.todos.entries.map (fun e => e.2.ID) = s.todos.keys := by
  unfold AList.keys List.keys
  exact List.map_congr_left (fun e he => hs e he)

/-- The IDs of the successful creates of a log are among the IDs formatted from
the readings `generateID` took, in the same order. -/
theorem createdIDs_sublist (rs : List Request) :
    ∀ h : TodoHandler,
      List.Sublist (createdIDs (h.serveAll rs).2)
        ((rs.filterMap Request.idReading).map generateID) := by
  induction rs with
  | nil => intro h; exact List.Sublist.slnil
  | cons r rs ih =>
    intro h
    have ih1 := ih (h.serve r).1
    rw [serveAll_cons]
    unfold createdIDs at ih1 ⊢
    cases r with
    | CreateTodo body now nano =>
      cases body with
      | none =>
        simpa [TodoHandler.serve, createTodo_invalid_body, sendErrorResponse, Request.idReading,
          StatusBadRequest, StatusCreated] using ih1
      | some req =>
        by_cases ht : req.Title = ""
        · simpa [TodoHandler.serve, createTodo_empty_title h req now nano ht, sendErrorResponse,
            Request.idReading, ht, StatusBadRequest, StatusCreated] using ih1
        · by_cases hp : generateID nano ∈ h.storage.todos
          · simp only [TodoHandler.serve, createTodo_of_present h req now nano ht hp] at ih1 ⊢
            simpa [sendErrorResponse, Request.idReading, ht, StatusInternalServerError,
              StatusCreated] using ih1.cons (generateID nano)
          · simp only [TodoHandler.serve, createTodo_of_absent h req now nano ht hp] at ih1 ⊢
            simpa [sendSuccessResponse, Request.idReading, ht, Response.data] using
              ih1.cons₂ (generateID nano)
    | GetAllTodos => simpa [TodoHandler.serve, Request.idReading] using ih1
    | GetTodo id => simpa [TodoHandler.serve, Request.idReading] using ih1
    | UpdateTodo id body now => simpa [TodoHandler.serve, Request.idReading] using ih1
    | DeleteTodo id => simpa [TodoHandler.serve, Request.idReading] using ih1

/-- C9, as the code has it. After any sequence of handler requests from the
empty store, every stored entity carries the ID it is stored under and the
stored entities have pairwise distinct IDs; the ID returned by a successful
`CreateTodo` differs from the ID of every entity stored at that moment; and
the IDs returned by the successful creates of the sequence are pairwise
distinct, deleted entities included, provided the clock readings `generateID`
took are pairwise distinct. -/
theorem ids_distinct_among_stored (rs : List Request) :
    ((NewTodoHandler NewInMemoryTodoStorage).serveAll rs).1.storage.IDsMatchKeys ∧
    (((NewTodoHandler NewInMemoryTodoStorage).serveAll rs).1.storage.todos.entries.map
      (fun e => e.2.ID)).Nodup ∧
    (∀ (body : Option CreateTodoRequest) (now : Time) (nano : Int) (e : Todo),
      (((NewTodoHandler NewInMemoryTodoStorage).serveAll rs).1.CreateTodo body now
        nano).2.StatusCode = StatusCreated →
      (((NewTodoHandler NewInMemoryTodoStorage).serveAll rs).1.CreateTodo body now
        nano).2.data = some e →
      ∀ x ∈ ((NewTodoHandler NewInMemoryTodoStorage).serveAll rs).1.storage.todos.entries,
        x.2.ID ≠ e.ID) ∧
    ((rs.filterMap Request.idReading).Nodup →
      (createdIDs ((NewTodoHandler NewInMemoryTodoStorage).serveAll rs).2).Nodup) := by
  have hk := serveAll_idsMatchKeys rs (NewTodoHandler NewInMemoryTodoStorage)
    (allStored_new _)
  refine ⟨hk, ?_, ?_, ?_⟩
  · rw [stored_ids_eq_keys _ hk]
    exact AList.keys_nodup _
  · intro body now nano e hs he x hx hxe
    obtain ⟨req, -, -, hp, hc⟩ := createTodo_created _ body now nano hs
    rw [hc] at he
    have he' : (⟨generateID nano, req.Title, req.Description, false, now, now⟩ : Todo) = e :=
      Option.some.inj he
    subst he'
    apply hp
    rw [AList.mem_keys, ← stored_ids_eq_keys _ hk]
    exact List.mem_map.2 ⟨x, hx, hxe⟩
  · intro hn
    exact (generateID_map_nodup hn).sublist (createdIDs_sublist rs _)

theorem ids_distinct_among_stored_witness :
    (createdIDs ((NewTodoHandler NewInMemoryTodoStorage).serveAll
      [.CreateTodo (some ⟨"a", "d"⟩) 5 5, .DeleteTodo "todo_5",
        .CreateTodo (some ⟨"b", "e"⟩) 6 6]).2).Nodup :=
  (ids_distinct_among_stored
    [.CreateTodo (some ⟨"a", "d"⟩) 5 5, .DeleteTodo "todo_5",
      .CreateTodo (some ⟨"b", "e"⟩) 6 6]).2.2.2 (by decide)

/-- C9 fails as stated. A todo is created with `generateID` reading 5 and
deleted; a later `CreateTodo` whose `generateID` reads 5 again succeeds with
201 and returns the ID `todo_5` of the deleted entity. -/
theorem deleted_id_reused :
    (((NewTodoHandler NewInMemoryTodoStorage).serveAll
      [.CreateTodo (some ⟨"a", "d"⟩) 5 5, .DeleteTodo "todo_5",
        .CreateTodo (some ⟨"b", "e"⟩) 5 5]).2.map (fun e => (e.2.StatusCode, e.2.data))) =
      [(201, some ⟨"todo_5", "a", "d", false, 5, 5⟩), (200, none),
        (201, some ⟨"todo_5", "b", "e", false, 5, 5⟩)] ∧
    createdIDs ((NewTodoHandler NewInMemoryTodoStorage).serveAll
      [.CreateTodo (some ⟨"a", "d"⟩) 5 5, .DeleteTodo "todo_5",
        .CreateTodo (some ⟨"b", "e"⟩) 5 5]).2 = ["todo_5", "todo_5"] ∧
    ¬ (createdIDs ((NewTodoHandler NewInMemoryTodoStorage).serveAll
      [.CreateTodo (some ⟨"a", "d"⟩) 5 5, .DeleteTodo "todo_5",
        .CreateTodo (some ⟨"b", "e"⟩) 5 5]).2).Nodup := by
  refine ⟨by decide, by decide, by decide⟩

/-- C10 at the failing input. After creating a todo titled "a", an `UpdateTodo`
whose body carries the empty string as title answers 200 with success=true and
an entity whose title is empty, and that entity is what the store holds. -/
theorem updateTodo_stores_empty_title :
    (((NewTodoHandler NewInMemoryTodoStorage).serveAll
      [.CreateTodo (some ⟨"a", "d"⟩) 5 5,
        .UpdateTodo "todo_5" (some ⟨some "", none, none⟩) 6]).2.map (fun e => e.2)) =
      [sendSuccessResponse 201 "Todo created successfully"
          (some ⟨"todo_5", "a", "d", false, 5, 5⟩),
        sendSuccessResponse 200 "Todo updated successfully"
          (some ⟨"todo_5", "", "d", false, 5, 6⟩)] ∧
    ((NewTodoHandler NewInMemoryTodoStorage).serveAll
      [.CreateTodo (some ⟨"a", "d"⟩) 5 5,
        .UpdateTodo "todo_5" (some ⟨some "", none, none⟩) 6]).1.storage.todos.lookup "todo_5" =
      some ⟨"todo_5", "", "d", false, 5, 6⟩ ∧
    ¬ ((NewTodoHandler NewInMemoryTodoStorage).serveAll
      [.CreateTodo (some ⟨"a", "d"⟩) 5 5,
        .UpdateTodo "todo_5" (some ⟨some "", none, none⟩) 6]).1.storage.TitlesNonEmpty := by
  refine ⟨by decide, by decide, by decide⟩

/-! ## Creates in any serial order

The storage methods hold the write lock from entry to return, so the calls of
several callers take effect one after another in the order the lock is
granted. What follows is the serial content of that: whatever the order, creates
of entities with pairwise distinct IDs all succeed and all are stored. The
granting of the lock itself, and callers running at the same time, are outside
this development. -/

theorem calls_cons (s : InMemoryTodoStorage) (c : StorageCall) (cs : List StorageCall) :
    s.calls (c :: cs) =
      (((s.call c).1.calls cs).1, (c, (s.call c).2) :: ((s.call c).1.calls cs).2) :=
  rfl

/-- Creates of other IDs leave the entry under `k` as it was. -/
theorem lookup_after_creates_of_ne (k : String) (todos : List Todo) :
    ∀ s : InMemoryTodoStorage, (∀ t ∈ todos, t.ID ≠ k) →
      (s.calls (todos.map StorageCall.Create)).1.todos.lookup k = s.todos.lookup k := by
  induction todos with
  | nil => intro s _; rfl
  | cons t ts ih =>
    intro s hne
    rw [List.map_cons, calls_cons]
    have hk : k ≠ t.ID := fun e => hne t (List.mem_cons_self t ts) e.symm
    rw [ih _ (fun x hx => hne x (List.mem_cons_of_mem t hx))]
    simp only [InMemoryTodoStorage.call, InMemoryTodoStorage.Create]
    cases h : s.todos.lookup t.ID with
    | some _ => rfl
    | none => exact AList.lookup_insert_ne hk

/-- Creates of entities with pairwise distinct IDs, none of them stored yet,
run one after another in any order: every call succeeds, the store grows by
exactly the number of calls, and each entity is stored under its ID. -/
theorem creates_distinct_ids_all_stored (todos : List Todo) :
    ∀ s : InMemoryTodoStorage, (∀ t ∈ todos, t.ID ∉ s.todos) →
      (todos.map (fun t => t.ID)).Nodup →
      (∀ e ∈ (s.calls (todos.map StorageCall.Create)).2, e.2 = true) ∧
      (s.calls (todos.map StorageCall.Create)).1.todos.keys.length =
        s.todos.keys.length + todos.length ∧
      ∀ t ∈ todos, (s.calls (todos.map StorageCall.Create)).1.GetByID t.ID = .ok t := by
  induction todos with
  | nil =>
    intro s _ _
    exact ⟨by simp [InMemoryTodoStorage.calls], by simp [InMemoryTodoStorage.calls],
      by simp⟩
  | cons t ts ih =>
    intro s habs hnd
    rw [List.map_cons, List.nodup_cons] at hnd
    have ht : t.ID ∉ s.todos := habs t (List.mem_cons_self t ts)
    have hl : s.todos.lookup t.ID = none := AList.lookup_eq_none.2 ht
    have hc : s.Create t = (⟨s.todos.insert t.ID t⟩, none) := by
      simp only [InMemoryTodoStorage.Create, hl]
    have hne : ∀ x ∈ ts, x.ID ≠ t.ID := fun x hx e =>
      hnd.1 (List.mem_map.2 ⟨x, hx, e⟩)
    have habs1 : ∀ x ∈ ts, x.ID ∉ (s.Create t).1.todos := by
      intro x hx hm
      rw [hc] at hm
      rcases (AList.mem_insert s.todos).1 hm with e | hm
      · exact hne x hx e
      · exact habs x (List.mem_cons_of_mem t hx) hm
    obtain ⟨hok, hlen, hget⟩ := ih (s.Create t).1 habs1 hnd.2
    have hsz : (s.Create t).1.todos.keys.length = s.todos.keys.length + 1 := by
      have := create_size s t
      rw [hc] at this ⊢
      simpa using this
    rw [List.map_cons, calls_cons]
    simp only [InMemoryTodoStorage.call]
    refine ⟨?_, ?_, ?_⟩
    · intro e he
      rcases List.mem_cons.1 he with rfl | he
      · simp [hc]
      · exact hok e he
    · rw [hlen, hsz, List.length_cons]
      omega
    · intro x hx
      rcases List.mem_cons.1 hx with rfl | hx
      · have h1 := lookup_after_creates_of_ne x.ID ts (s.Create x).1 hne
        have h2 : (s.Create x).1.todos.lookup x.ID = some x := by
          rw [hc]; exact AList.lookup_insert s.todos
        simp only [InMemoryTodoStorage.GetByID, h1, h2]
      · exact hget x hx

end TodoApp
